import Mathlib

/-!
Verification development for the `dbus-udisks2` crate (pop-os/dbus-udisks2).

We shallowly embed the decoding and assembly logic of the crate:

* `src/utils.rs`   — scalar extraction utilities over dynamically typed dbus values;
* `src/block.rs`   — the `Block` entity decoder (`Block::parse_from`) and
                     `Block::get_encrypted_block`;
* `src/drive.rs`   — the `Drive` entity (only its data model is needed here);
* `src/disks.rs`   — the `Disks::new_cache` relationship assembler;
* `src/smart.rs`   — the SMART attribute decoder and `SmartAttribute::assessment`.

Modelling conventions:

* A dbus `RefArg` value is the inductive `DbusValue`; `as_str`, `as_u64` and
  `as_iter` model the corresponding `RefArg` accessors (arrays, structs and
  dicts all iterate over their elements in dbus-rs; we represent the iteration
  view uniformly as `array`). A property arrives wrapped in a
  `Variant<Box<RefArg>>`; the scalar helpers reach the payload through
  `arg.0`, and `Variant::as_iter` always yields a one-element iterator over
  the payload, so the model identifies the wrapper with its payload and an
  `as_iter().unwrap()` on the wrapper can never panic (its loop body runs
  exactly once, on the payload).
* Rust `u64`/`u8`/`u16`/`u32` are `Nat` (with explicit `% 2 ^ w` at the points
  where Rust performs an `as` truncation), `i32`/`i64` are `Int`.
* A Rust `String` produced by UTF-8-decoding a byte array (`String::from_utf8`)
  is modelled as its byte list (`List Nat`), guarded by an explicit UTF-8
  validity predicate; `PathBuf` is likewise a byte list.
* A Rust panic (`unwrap`, `expect`) is modelled as `Except.error`; code that
  cannot panic returns `Except.ok`.
* Rust `HashMap`s are association lists (`get` is `find?` on the key); the
  iteration order of a map is the list order.
-/

/-- Model of a dynamically typed dbus value (`dbus::arg::RefArg`). -/
inductive DbusValue where
  | str (s : String)
  | u64 (n : Nat)
  | i64 (n : Int)
  | boolean (b : Bool)
  | array (xs : List DbusValue)
deriving Repr

/-- Model of `RefArg::as_str`: only string-typed values answer. -/
def DbusValue.as_str : DbusValue → Option String
  | .str s => some s
  | _ => none

/-- Model of `RefArg::as_u64`: unsigned integers and booleans answer (a boolean
reads as 0 or 1); signed integers and aggregates do not. -/
def DbusValue.as_u64 : DbusValue → Option Nat
  | .u64 n => some n
  | .boolean b => some (if b then 1 else 0)
  | _ => none

/-- Model of `RefArg::as_iter`: aggregate values iterate over their elements. -/
def DbusValue.as_iter : DbusValue → Option (List DbusValue)
  | .array xs => some xs
  | _ => none

/-- One object's property bag for one interface: property name to value. -/
abbrev PropMap := List (String × DbusValue)

/-- `DbusObjects`: interface name to property bag, for one object path. -/
abbrev DbusObjects := List (String × PropMap)

/-- `HashMap::get` on a property bag. -/
def lookupProp (m : PropMap) (k : String) : Option DbusValue :=
  (m.find? (fun p => p.1 == k)).map (·.2)

/-- `HashMap::get` on an interface map. -/
def lookupIface (m : DbusObjects) (k : String) : Option PropMap :=
  (m.find? (fun p => p.1 == k)).map (·.2)

/-- Whether a byte is a UTF-8 continuation byte (`0x80 ..= 0xBF`). -/
def utf8Cont (b : Nat) : Bool := 0x80 ≤ b && b ≤ 0xBF

/-- UTF-8 validity of a byte sequence: the success condition of Rust's
`String::from_utf8` (standard RFC 3629 byte patterns). -/
def utf8Valid : List Nat → Bool
  | [] => true
  | b :: rest =>
    if b ≤ 0x7F then utf8Valid rest
    else if 0xC2 ≤ b && b ≤ 0xDF then
      match rest with
      | c1 :: rest2 => utf8Cont c1 && utf8Valid rest2
      | [] => false
    else if b == 0xE0 then
      match rest with
      | c1 :: c2 :: rest2 => (0xA0 ≤ c1 && c1 ≤ 0xBF) && utf8Cont c2 && utf8Valid rest2
      | _ => false
    else if (0xE1 ≤ b && b ≤ 0xEC) || b == 0xEE || b == 0xEF then
      match rest with
      | c1 :: c2 :: rest2 => utf8Cont c1 && utf8Cont c2 && utf8Valid rest2
      | _ => false
    else if b == 0xED then
      match rest with
      | c1 :: c2 :: rest2 => (0x80 ≤ c1 && c1 ≤ 0x9F) && utf8Cont c2 && utf8Valid rest2
      | _ => false
    else if b == 0xF0 then
      match rest with
      | c1 :: c2 :: c3 :: rest2 =>
        (0x90 ≤ c1 && c1 ≤ 0xBF) && utf8Cont c2 && utf8Cont c3 && utf8Valid rest2
      | _ => false
    else if 0xF1 ≤ b && b ≤ 0xF3 then
      match rest with
      | c1 :: c2 :: c3 :: rest2 =>
        utf8Cont c1 && utf8Cont c2 && utf8Cont c3 && utf8Valid rest2
      | _ => false
    else if b == 0xF4 then
      match rest with
      | c1 :: c2 :: c3 :: rest2 =>
        (0x80 ≤ c1 && c1 ≤ 0x8F) && utf8Cont c2 && utf8Cont c3 && utf8Valid rest2
      | _ => false
    else false

/-- `utils::get_string`: a non-empty string, otherwise absent (empty string and
missing are deliberately unified). -/
def get_string (arg : DbusValue) : Option String :=
  arg.as_str.bind fun x => if x.isEmpty then none else some x

/-- `utils::get_u64`: the value as an unsigned integer, or 0. -/
def get_u64 (arg : DbusValue) : Nat :=
  arg.as_u64.getD 0

/-- `utils::get_bool`: true iff the value reads as a nonzero unsigned integer. -/
def get_bool (arg : DbusValue) : Bool :=
  arg.as_u64.getD 0 != 0

/-- `utils::get_string_array`: iterate the value, keep the elements that answer
`as_str` (note: including empty strings), absent if the result is empty. -/
def get_string_array (arg : DbusValue) : Option (List String) :=
  arg.as_iter.bind fun items =>
    let vector := items.filterMap DbusValue.as_str
    if vector.isEmpty then none else some vector

/-- `utils::atostr`: collect the bytes that answer `as_u64` (truncated to `u8`),
drop one trailing NUL if present, and UTF-8-validate. The decoded Rust `String`
is represented by its byte list. -/
def atostr (array : Option (List DbusValue)) : Option (List Nat) :=
  array.bind fun bytes =>
    let inner_vec := bytes.filterMap fun byte => byte.as_u64.map (· % 256)
    let inner_vec := if inner_vec.getLast? == some 0 then inner_vec.dropLast else inner_vec
    if utf8Valid inner_vec then some inner_vec else none

/-- `utils::get_byte_array`. -/
def get_byte_array (arg : DbusValue) : Option (List Nat) :=
  atostr arg.as_iter

/-- `utils::vva`: unwrap three levels of iteration (variant / variant / array)
and decode the innermost byte array. -/
def vva (value : DbusValue) : Option (List Nat) :=
  atostr (value.as_iter.bind fun i =>
    i.head?.bind fun i => i.as_iter.bind fun i =>
      i.head?.bind fun i => i.as_iter)

/-- `utils::get_array_of_byte_arrays`: `atostr` element-wise; absent if no
element decodes. -/
def get_array_of_byte_arrays (arg : DbusValue) : Option (List (List Nat)) :=
  arg.as_iter.bind fun items =>
    let vector := items.filterMap fun item => atostr item.as_iter
    if vector.isEmpty then none else some vector

/-! ## SMART attribute decoding (`src/smart.rs`) -/

/-- `smart::PrettyUnit` (`num_enum::TryFromPrimitive`, `repr(u8)`). -/
inductive PrettyUnit where
  | Dimensionless
  | Milliseconds
  | Sectors
  | Millikelvin
deriving Repr, DecidableEq

/-- The `TryFromPrimitive` conversion generated for `PrettyUnit` (discriminants
1, 2, 3, 4), already applied to a `u8`. -/
def PrettyUnit.tryFromU8 : Nat → Option PrettyUnit
  | 1 => some .Dimensionless
  | 2 => some .Milliseconds
  | 3 => some .Sectors
  | 4 => some .Millikelvin
  | _ => none

/-- `smart::PrettyValue`. -/
structure PrettyValue where
  value : Int
  unit : PrettyUnit
deriving Repr, DecidableEq

/-- `smart::SmartAssessment`. -/
inductive SmartAssessment where
  | Failing
  | FailedInPast
  | Ok
deriving Repr, DecidableEq

/-- `smart::SmartAttribute`. -/
structure SmartAttribute where
  id : Nat
  name : String
  flags : Nat
  normalized : Int
  worst : Int
  threshold : Int
  pretty : Option PrettyValue
deriving Repr, DecidableEq

/-- `smart::RawSmartAttribute`, the wire tuple
`(u8, String, u16, i32, i32, i32, i64, i32, KeyVariant)`; the final expansion
map is never read by the decoder and is dropped from the model. -/
structure RawSmartAttribute where
  id : Nat
  name : String
  flags : Nat
  value : Int
  worst : Int
  threshold : Int
  pretty_value : Int
  pretty_unit : Int
deriving Repr, DecidableEq

/-- Rust's `as u8` truncation of an `i32`: the low 8 bits of the two's
complement representation. -/
def i32AsU8 (n : Int) : Nat := (n % 256).toNat

/-- Rust's `as i32` truncation of a `u64`. -/
def u64AsI32 (n : Nat) : Int :=
  let m : Nat := n % 2 ^ 32
  if m < 2 ^ 31 then (m : Int) else (m : Int) - 2 ^ 32

/-- `impl From<RawSmartAttribute> for SmartAttribute`. -/
def SmartAttribute.ofRaw (raw : RawSmartAttribute) : SmartAttribute :=
  let pretty := (PrettyUnit.tryFromU8 (i32AsU8 raw.pretty_unit)).map fun unit =>
    { value := raw.pretty_value, unit := unit }
  { id := raw.id
    name := raw.name
    flags := raw.flags
    normalized := raw.value
    worst := raw.worst
    threshold := raw.threshold
    pretty := pretty }

/-- `SmartAttribute::pre_fail`. -/
def SmartAttribute.pre_fail (a : SmartAttribute) : Bool :=
  a.flags % 2 != 0

/-- `SmartAttribute::assessment`. -/
def SmartAttribute.assessment (a : SmartAttribute) : SmartAssessment :=
  if a.normalized > 0 ∧ a.threshold > 0 ∧ a.normalized ≤ a.threshold then
    .Failing
  else if a.worst > 0 ∧ a.threshold > 0 ∧ a.worst ≤ a.threshold then
    .FailedInPast
  else
    .Ok

/-- The assessment rule exactly as the specification words it: the threshold
comparisons are gated on all three of normalized, worst and threshold being
strictly positive, and any field at or below zero yields `Ok`. -/
def assessmentSpecRule (a : SmartAttribute) : SmartAssessment :=
  if a.normalized > 0 ∧ a.worst > 0 ∧ a.threshold > 0 then
    if a.normalized ≤ a.threshold then .Failing
    else if a.worst ≤ a.threshold then .FailedInPast
    else .Ok
  else
    .Ok

/-- The assessment rule as amended to match the code: the `Failing` comparison
is gated only on normalized and threshold being positive (worst is not
consulted), and the `FailedInPast` comparison only on worst and threshold. -/
def assessmentAmendedRule (a : SmartAttribute) : SmartAssessment :=
  if a.threshold > 0 ∧ a.normalized > 0 ∧ a.normalized ≤ a.threshold then
    .Failing
  else if a.threshold > 0 ∧ a.worst > 0 ∧ a.worst ≤ a.threshold then
    .FailedInPast
  else
    .Ok

/-! ## Block entities and decoder (`src/block.rs`) -/

/-- `block::BlockConfigurationFstab` (fields default to empty / zero). -/
structure BlockConfigurationFstab where
  fsname : List Nat := []
  dir : List Nat := []
  type_ : List Nat := []
  opts : List Nat := []
  freq : Int := 0
  passno : Int := 0
deriving Repr, DecidableEq

/-- `block::BlockConfigurationCrypttab`. -/
structure BlockConfigurationCrypttab where
  name : List Nat := []
  device : List Nat := []
  passphrase_path : List Nat := []
  options : List Nat := []
deriving Repr, DecidableEq

/-- `block::BlockConfiguration`. -/
structure BlockConfiguration where
  fstab : BlockConfigurationFstab := {}
  crypttab : BlockConfigurationCrypttab := {}
deriving Repr, DecidableEq

/-- `block::Encrypted`. -/
structure Encrypted where
  hint_encryption_type : String := ""
  metadata_size : Nat := 0
  cleartext_device : String := ""
deriving Repr, DecidableEq

/-- `block::PartitionTable` (partitions listed by their dbus paths). -/
structure PartitionTable where
  type_ : String := ""
  partitions : List String := []
deriving Repr, DecidableEq

/-- `block::Partition`. -/
structure Partition where
  type_ : String := ""
  name : String := ""
  table : String := ""
  flags : Nat := 0
  number : Nat := 0
  offset : Nat := 0
  size : Nat := 0
  uuid : String := ""
  is_container : Bool := false
  is_contained : Bool := false
deriving Repr, DecidableEq

/-- `block::Block`; the defaults are Rust's `Block::default()`. -/
structure Block where
  crypto_backing_device : String := ""
  device_number : Nat := 0
  device : List Nat := []
  drive : String := ""
  encrypted : Option Encrypted := none
  hint_auto : Bool := false
  hint_icon_name : Option String := none
  hint_ignore : Bool := false
  hint_name : Option String := none
  hint_partitionable : Bool := false
  hint_symbolic_icon_name : Option String := none
  hint_system : Bool := false
  id_label : Option String := none
  id_type : Option String := none
  id_usage : Option String := none
  id_uuid : Option String := none
  id_version : Option String := none
  id : String := ""
  loopback : Bool := false
  mdraid : List Nat := []
  mdraid_member : List Nat := []
  mount_points : List (List Nat) := []
  partition : Option Partition := none
  path : String := ""
  preferred_device : List Nat := []
  read_only : Bool := false
  size : Nat := 0
  swapspace : Option Bool := none
  symlinks : List (List Nat) := []
  table : Option PartitionTable := none
  userspace_mount_options : List String := []
  configuration : Option BlockConfiguration := none
deriving Repr, DecidableEq

/-- `Block::is_encrypted`. -/
def Block.is_encrypted (b : Block) : Bool :=
  b.encrypted.isSome

/-- `Block::get_encrypted_block`: linear scan of `within` for the block whose
`crypto_backing_device` equals this block's path. -/
def Block.get_encrypted_block (self : Block) (within : List Block) : Option Block :=
  if self.encrypted.isSome then
    within.find? fun b => b.crypto_backing_device == self.path
  else
    none

/-- A Rust `Option::unwrap` / `Option::expect`: a `None` panics. -/
def unwrapE (msg : String) : Option α → Except String α
  | some a => .ok a
  | none => .error msg

/-- UTF-8 byte encoding of a Lean string (`PathBuf::from(String)` keeps the
string's bytes). -/
def strBytes (s : String) : List Nat :=
  (s.data.map String.utf8EncodeChar).flatten.map UInt8.toNat

/-- One alternating key/value walk of the `fstab` configuration record
(`while let (Some(key), Some(value)) = (array.next(), array.next())`). -/
def parseFstabPairs (fstab : BlockConfigurationFstab) :
    List DbusValue → BlockConfigurationFstab
  | key :: value :: rest =>
    let fstab :=
      match key.as_str with
      | none => fstab
      | some k =>
        if k == "fsname" then { fstab with fsname := (vva value).getD [] }
        else if k == "dir" then { fstab with dir := (vva value).getD [] }
        else if k == "type" then { fstab with type_ := (vva value).getD [] }
        else if k == "opts" then { fstab with opts := (vva value).getD [] }
        else if k == "freq" then { fstab with freq := u64AsI32 (value.as_u64.getD 0) }
        else if k == "passno" then { fstab with passno := u64AsI32 (value.as_u64.getD 0) }
        else fstab
    parseFstabPairs fstab rest
  | _ => fstab

/-- One alternating key/value walk of the `crypttab` configuration record. -/
def parseCrypttabPairs (crypttab : BlockConfigurationCrypttab) :
    List DbusValue → BlockConfigurationCrypttab
  | key :: value :: rest =>
    let crypttab :=
      match key.as_str with
      | none => crypttab
      | some k =>
        if k == "name" then { crypttab with name := (vva value).getD [] }
        else if k == "device" then { crypttab with device := (vva value).getD [] }
        else if k == "passphrase-path" then
          { crypttab with passphrase_path := (vva value).getD [] }
        else if k == "options" then { crypttab with options := (vva value).getD [] }
        else crypttab
    parseCrypttabPairs crypttab rest
  | _ => crypttab

/-- The body of the `Configuration` decoding loop. The source iterates
`value.as_iter().unwrap()` on the property's `Variant` wrapper, which always
yields exactly one element — the payload — so this body runs once, on the
payload: unwrap to the `(key, array)` pair of the payload's first record and
dispatch on `fstab` / `crypttab`; anything else is logged and skipped. -/
def parseConfigBody (configuration : BlockConfiguration) (value : DbusValue) :
    BlockConfiguration :=
  match value.as_iter with
  | none => configuration
  | some outer =>
    match outer.head?.bind DbusValue.as_iter with
    | none => configuration
    | some inner =>
      match inner with
      | key :: second :: _ =>
        match second.as_iter with
        | none => configuration
        | some array =>
          match key.as_str with
          | none => configuration
          | some k =>
            if k == "fstab" then
              { configuration with fstab := parseFstabPairs configuration.fstab array }
            else if k == "crypttab" then
              { configuration with crypttab := parseCrypttabPairs configuration.crypttab array }
            else configuration
      | _ => configuration

/-- One step of the loop over the `org.freedesktop.UDisks2.Block` property bag
in `Block::parse_from`. The `unwrapE` arms are the source's fallible
`unwrap()` calls on extractor results; the `Configuration` arm's
`as_iter().unwrap()` is on the `Variant` wrapper and always succeeds,
running the loop body once on the payload. -/
def parseBlockProp (block : Block) (kv : String × DbusValue) : Except String Block :=
  let value := kv.2
  match kv.1 with
  | "CryptoBackingDevice" =>
    (unwrapE "unwrap" (get_string value)).map fun s =>
      { block with crypto_backing_device := s }
  | "Device" =>
    (unwrapE "unwrap" (get_byte_array value)).map fun s => { block with device := s }
  | "DeviceNumber" => .ok { block with device_number := get_u64 value }
  | "Drive" =>
    (unwrapE "unwrap" (get_string value)).map fun s => { block with drive := s }
  | "HintAuto" => .ok { block with hint_auto := get_bool value }
  | "HintIconName" => .ok { block with hint_icon_name := get_string value }
  | "HintIgnore" => .ok { block with hint_ignore := get_bool value }
  | "HintName" => .ok { block with hint_name := get_string value }
  | "HintPartitionable" => .ok { block with hint_partitionable := get_bool value }
  | "HintSymbolicIconName" => .ok { block with hint_symbolic_icon_name := get_string value }
  | "HintSystem" => .ok { block with hint_system := get_bool value }
  | "Id" => .ok { block with id := (get_string value).getD "" }
  | "IdLabel" => .ok { block with id_label := get_string value }
  | "IdType" => .ok { block with id_type := get_string value }
  | "IdUsage" => .ok { block with id_usage := get_string value }
  | "IdUUID" => .ok { block with id_uuid := get_string value }
  | "IdVersion" => .ok { block with id_version := get_string value }
  | "MDRaid" => .ok { block with mdraid := ((get_string value).map strBytes).getD [] }
  | "MDRaidMember" =>
    .ok { block with mdraid_member := ((get_string value).map strBytes).getD [] }
  | "PreferredDevice" =>
    (unwrapE "unwrap" (get_byte_array value)).map fun s =>
      { block with preferred_device := s }
  | "ReadOnly" => .ok { block with read_only := get_bool value }
  | "Size" => .ok { block with size := get_u64 value }
  | "Symlinks" => .ok { block with symlinks := (get_array_of_byte_arrays value).getD [] }
  | "UserspaceMountOptions" =>
    .ok { block with userspace_mount_options := (get_string_array value).getD [] }
  | "Configuration" =>
    .ok { block with configuration := some (parseConfigBody {} value) }
  | _ => .ok block

/-- One step of the loop over the `org.freedesktop.UDisks2.PartitionTable`
property bag. The partition path list is sorted ascending after decoding
(`sort_unstable`; modelled by `mergeSort`, which agrees on the sorted order). -/
def parseTableProp (table : PartitionTable) (kv : String × DbusValue) : PartitionTable :=
  match kv.1 with
  | "Type" => { table with type_ := (get_string kv.2).getD "" }
  | "Partitions" =>
    { table with
      partitions := ((get_string_array kv.2).getD []).mergeSort (fun a b => a ≤ b) }
  | _ => table

/-- One step of the loop over the `org.freedesktop.UDisks2.Partition` property
bag. The `Table` arm is the source's
`get_string(value).expect("partition is not part of a table")`. -/
def parsePartitionProp (partition : Partition) (kv : String × DbusValue) :
    Except String Partition :=
  match kv.1 with
  | "Type" => .ok { partition with type_ := (get_string kv.2).getD "" }
  | "Name" => .ok { partition with name := (get_string kv.2).getD "" }
  | "UUID" => .ok { partition with uuid := (get_string kv.2).getD "" }
  | "Table" =>
    (unwrapE "partition is not part of a table" (get_string kv.2)).map fun s =>
      { partition with table := s }
  | "Flags" => .ok { partition with flags := get_u64 kv.2 }
  | "Offset" => .ok { partition with offset := get_u64 kv.2 }
  | "Size" => .ok { partition with size := get_u64 kv.2 }
  | "Number" => .ok { partition with number := get_u64 kv.2 % 2 ^ 32 }
  | "IsContained" => .ok { partition with is_contained := get_bool kv.2 }
  | "IsContainer" => .ok { partition with is_container := get_bool kv.2 }
  | _ => .ok partition

/-- One step of the loop over the `org.freedesktop.UDisks2.Encrypted` property
bag. -/
def parseEncryptedProp (encrypted : Encrypted) (kv : String × DbusValue) : Encrypted :=
  match kv.1 with
  | "HintEncryptionType" =>
    { encrypted with hint_encryption_type := (get_string kv.2).getD "" }
  | "MetadataSize" => { encrypted with metadata_size := get_u64 kv.2 }
  | "CleartextDevice" =>
    { encrypted with cleartext_device := (get_string kv.2).getD "" }
  | _ => encrypted

/-- A left fold over a list that may stop with a panic (`Except.error`). -/
def foldE (f : β → α → Except String β) : β → List α → Except String β
  | b, [] => .ok b
  | b, x :: xs =>
    match f b x with
    | .error e => .error e
    | .ok b2 => foldE f b2 xs

/-- One step of the second pass of `Block::parse_from`, over all interfaces of
the object. -/
def parseFacet (block : Block) (kv : String × PropMap) : Except String Block :=
  let object := kv.2
  match kv.1 with
  | "org.freedesktop.UDisks2.Block" => .ok block
  | "org.freedesktop.UDisks2.Swapspace" =>
    .ok { block with
          swapspace := some (((lookupProp object "Active").map get_bool).getD false) }
  | "org.freedesktop.UDisks2.PartitionTable" =>
    .ok { block with table := some (object.foldl parseTableProp {}) }
  | "org.freedesktop.UDisks2.Partition" =>
    (foldE parsePartitionProp {} object).map fun partition =>
      { block with partition := some partition }
  | "org.freedesktop.UDisks2.Filesystem" =>
    .ok { block with
          mount_points :=
            (((lookupProp object "MountPoints").bind get_array_of_byte_arrays)).getD [] }
  | "org.freedesktop.UDisks2.Encrypted" =>
    .ok { block with encrypted := some (object.foldl parseEncryptedProp {}) }
  | _ => .ok block

/-- `Block::parse_from` (`impl ParseFrom for Block`). An object carrying the
loop facet decodes to nothing; an object without the block facet decodes to
nothing; otherwise the block facet's properties are decoded (first pass) and
then every interface is scanned for optional facets (second pass). An
`Except.error` result is a Rust panic. -/
def Block.parse_from (path : String) (objects : DbusObjects) :
    Except String (Option Block) :=
  if (lookupIface objects "org.freedesktop.UDisks2.Loop").isSome then
    .ok none
  else
    match lookupIface objects "org.freedesktop.UDisks2.Block" with
    | none => .ok none
    | some object =>
      match foldE parseBlockProp { path := path } object with
      | .error e => .error e
      | .ok block =>
        match foldE parseFacet block objects with
        | .error e => .error e
        | .ok block => .ok (some block)

/-! ## Drive entity (`src/drive.rs`) -/

/-- `drive::Drive`; the defaults are Rust's `Drive::default()`. -/
structure Drive where
  can_power_off : Bool := false
  connection_bus : String := ""
  ejectable : Bool := false
  id : String := ""
  media_available : Bool := false
  media_change_detected : Bool := false
  media_compatibility : List String := []
  media_removable : Bool := false
  media : Option String := none
  model : String := ""
  optical : Bool := false
  optical_blank : Bool := false
  optical_num_tracks : Nat := 0
  optical_num_audio_tracks : Nat := 0
  optical_num_data_tracks : Nat := 0
  optical_num_sessions : Nat := 0
  path : String := ""
  removable : Bool := false
  revision : String := ""
  rotation_rate : Int := 0
  seat : String := ""
  serial : String := ""
  sibling_id : String := ""
  size : Nat := 0
  sort_key : String := ""
  time_detected : Nat := 0
  time_media_detected : Nat := 0
  vendor : String := ""
  wwn : String := ""
deriving Repr, DecidableEq

/-! ## Disks view assembly (`src/disks.rs`) -/

/-- `disks::DiskDevice`. -/
structure DiskDevice where
  drive : Drive
  parent : Block
  partitions : List Block
deriving Repr, DecidableEq

/-- `disks::Disks`. -/
structure Disks where
  devices : List DiskDevice
deriving Repr, DecidableEq

/-- One iteration of the inner loop of `Disks::new_cache` over one drive's
blocks: a table-bearing block overwrites the parent slot, any other block is
pushed onto the partition list. -/
def splitStep (acc : Option Block × List Block) (b : Block) : Option Block × List Block :=
  if b.table.isSome then (some b, acc.2) else (acc.1, acc.2 ++ [b])

/-- The inner loop of `Disks::new_cache` over one drive's blocks: the last
table-bearing block becomes the parent, every other block is pushed onto the
partition list in encounter order. -/
def splitBlocks (owned : List Block) : Option Block × List Block :=
  owned.foldl splitStep (none, [])

/-- The sort key closure `|p| p.partition.as_ref().unwrap().offset`. Reading
the key of a facet-less block panics; outside proofs about panics the facet is
present and this is its byte offset. -/
def offsetKey (p : Block) : Nat :=
  (p.partition.map Partition.offset).getD 0

/-- `partitions.sort_unstable_by_key(|p| p.partition.as_ref().unwrap().offset)`.
Rust's sort computes keys lazily inside comparisons: a slice shorter than two
elements returns before any key is read, while on two or more elements every
element's key is read (insertion sort touches each adjacent pair, the quicksort
ranges compare every element with a pivot), so a facet-less element then
panics. The sorted order is modelled by `mergeSort` on the key (`sort_unstable`
differs from a stable sort only in the order of equal-keyed elements). -/
def sortPartitions (partitions : List Block) : Except String (List Block) :=
  if partitions.length < 2 then
    .ok partitions
  else if partitions.any fun p => p.partition.isNone then
    .error "unwrap"
  else
    .ok (partitions.mergeSort fun a b => offsetKey a ≤ offsetKey b)

/-- The drive loop of `Disks::new_cache`: one `DiskDevice` per drive that has a
parent block, skipping drives without one. -/
def newCacheAux (blocks : List Block) : List Drive → Except String (List DiskDevice)
  | [] => .ok []
  | drive :: rest =>
    let owned := blocks.filter fun b => b.drive == drive.path
    match splitBlocks owned with
    | (none, _) => newCacheAux blocks rest
    | (some parent, partitions) =>
      match sortPartitions partitions with
      | .error e => .error e
      | .ok sorted =>
        (newCacheAux blocks rest).map fun devs =>
          { drive := drive, parent := parent, partitions := sorted } :: devs

/-- `Disks::new_cache`, with the cache's decoded drive and block sets taken as
inputs (`udisks2.get_drives()` / `udisks2.get_blocks()`). An `Except.error`
result is a Rust panic. -/
def Disks.new_cache (drives : List Drive) (blocks : List Block) : Except String Disks :=
  (newCacheAux blocks drives).map Disks.mk

/-! ## Helper lemmas -/

/-- If the parent slot of the block-splitting fold is filled, it was filled by
a table-bearing member of the list (or was already filled at the start). -/
theorem splitStep_foldl_fst (l : List Block) :
    ∀ (acc : Option Block × List Block) (p : Block),
      (l.foldl splitStep acc).1 = some p →
      (p ∈ l ∧ p.table.isSome = true) ∨ acc.1 = some p := by
  induction l with
  | nil => intro acc p h; exact Or.inr h
  | cons b rest ih =>
    intro acc p h
    rw [List.foldl_cons] at h
    rcases ih (splitStep acc b) p h with ⟨hm, ht⟩ | hacc
    · exact Or.inl ⟨List.mem_cons_of_mem _ hm, ht⟩
    · unfold splitStep at hacc
      by_cases hb : b.table.isSome
      · simp only [hb, if_true] at hacc
        cases hacc
        exact Or.inl ⟨List.mem_cons_self _ _, hb⟩
      · simp only [hb, if_false, Bool.false_eq_true] at hacc
        exact Or.inr hacc

/-- Every element of the partition side of the block-splitting fold is a
table-less member of the list (or was already accumulated at the start). -/
theorem splitStep_foldl_snd (l : List Block) :
    ∀ (acc : Option Block × List Block) (q : Block),
      q ∈ (l.foldl splitStep acc).2 →
      (q ∈ l ∧ q.table = none) ∨ q ∈ acc.2 := by
  induction l with
  | nil => intro acc q h; exact Or.inr h
  | cons b rest ih =>
    intro acc q h
    rw [List.foldl_cons] at h
    rcases ih (splitStep acc b) q h with ⟨hm, ht⟩ | hacc
    · exact Or.inl ⟨List.mem_cons_of_mem _ hm, ht⟩
    · unfold splitStep at hacc
      by_cases hb : b.table.isSome
      · simp only [hb, if_true] at hacc
        exact Or.inr hacc
      · simp only [hb, if_false, Bool.false_eq_true] at hacc
        rcases List.mem_append.mp hacc with h1 | h2
        · exact Or.inr h1
        · rcases List.mem_singleton.mp h2 with rfl
          exact Or.inl ⟨List.mem_cons_self _ _, Option.not_isSome_iff_eq_none.mp (by simp [hb])⟩

/-- `splitBlocks` parent characterisation. -/
theorem splitBlocks_fst (l : List Block) (p : Block)
    (h : (splitBlocks l).1 = some p) : p ∈ l ∧ p.table.isSome = true := by
  rcases splitStep_foldl_fst l (none, []) p h with h1 | h2
  · exact h1
  · cases h2

/-- `splitBlocks` partition-side characterisation. -/
theorem splitBlocks_snd (l : List Block) (q : Block)
    (h : q ∈ (splitBlocks l).2) : q ∈ l ∧ q.table = none := by
  rcases splitStep_foldl_snd l (none, []) q h with h1 | h2
  · exact h1
  · cases h2

/-- Every element of a successful `sortPartitions` result comes from the
input. -/
theorem sortPartitions_mem (parts sorted : List Block)
    (h : sortPartitions parts = .ok sorted) : ∀ p ∈ sorted, p ∈ parts := by
  unfold sortPartitions at h
  split at h
  · cases h; exact fun p hp => hp
  · split at h
    · cases h
    · cases h; exact fun p hp => List.mem_mergeSort.mp hp

/-- A successful `sortPartitions` result is sorted ascending by the offset
key. -/
theorem sortPartitions_pairwise (parts sorted : List Block)
    (h : sortPartitions parts = .ok sorted) :
    sorted.Pairwise fun a b => offsetKey a ≤ offsetKey b := by
  unfold sortPartitions at h
  split at h
  · rename_i hlen
    cases h
    match parts, hlen with
    | [], _ => exact List.Pairwise.nil
    | [x], _ => exact List.pairwise_singleton _ _
    | x :: y :: rest, hlen => simp at hlen; omega
  · split at h
    · cases h
    · cases h
      have hs := @List.sorted_mergeSort Block
        (fun a b => decide (offsetKey a ≤ offsetKey b))
        (fun a b c h1 h2 => by
          simp only [decide_eq_true_eq] at *
          omega)
        (fun a b => by
          simp only [Bool.or_eq_true, decide_eq_true_eq]
          omega)
        parts
      exact hs.imp fun hab => by simpa using hab

/-- Full characterisation of a successfully assembled device: its drive is one
of the input drives, its parent and partition list come from splitting the
blocks owned by that drive, and its partition list passed the sort. -/
theorem newCacheAux_spec (blocks : List Block) :
    ∀ (drives : List Drive) (devs : List DiskDevice),
      newCacheAux blocks drives = .ok devs →
      ∀ dev ∈ devs,
        dev.drive ∈ drives ∧
        ∃ parts,
          splitBlocks (blocks.filter fun b => b.drive == dev.drive.path) =
            (some dev.parent, parts) ∧
          sortPartitions parts = .ok dev.partitions := by
  intro drives
  induction drives with
  | nil =>
    intro devs h dev hdev
    cases h
    cases hdev
  | cons drive rest ih =>
    intro devs h dev hdev
    simp only [newCacheAux] at h
    rcases hsplit : splitBlocks (blocks.filter fun b => b.drive == drive.path) with
      ⟨parent?, parts⟩
    rw [hsplit] at h
    cases parent? with
    | none =>
      dsimp only at h
      rcases ih devs h dev hdev with ⟨hmem, rest⟩
      exact ⟨List.mem_cons_of_mem _ hmem, rest⟩
    | some parent =>
      dsimp only at h
      rcases hsort : sortPartitions parts with e | sorted
      · rw [hsort] at h; cases h
      · rw [hsort] at h
        dsimp only at h
        rcases hrest : newCacheAux blocks rest with e | devs'
        · rw [hrest] at h; cases h
        · rw [hrest] at h
          dsimp only [Except.map] at h
          cases h
          rcases List.mem_cons.mp hdev with rfl | htail
          · exact ⟨List.mem_cons_self _ _, parts, hsplit, hsort⟩
          · rcases ih devs' hrest dev htail with ⟨hmem, rest2⟩
            exact ⟨List.mem_cons_of_mem _ hmem, rest2⟩

/-- If any drive in the list has a parent block but its partition list fails
the sort, the whole assembly fails. -/
theorem newCacheAux_error (blocks : List Block) (d : Drive) (parent : Block)
    (parts : List Block) (e : String)
    (hsplit : splitBlocks (blocks.filter fun b => b.drive == d.path) =
      (some parent, parts))
    (hsort : sortPartitions parts = .error e) :
    ∀ (drives : List Drive), d ∈ drives →
      (newCacheAux blocks drives).isOk = false := by
  intro drives
  induction drives with
  | nil => intro h; cases h
  | cons drive rest ih =>
    intro hmem
    simp only [newCacheAux]
    rcases List.mem_cons.mp hmem with rfl | htail
    · rw [hsplit]
      dsimp only
      rw [hsort]
      rfl
    · rcases hs : splitBlocks (blocks.filter fun b => b.drive == drive.path) with
        ⟨parent?, parts'⟩
      cases parent? with
      | none => exact ih htail
      | some p =>
        dsimp only
        rcases hso : sortPartitions parts' with e' | sorted
        · rfl
        · dsimp only
          rcases hrest : newCacheAux blocks rest with e'' | devs'
          · rfl
          · have := ih htail
            rw [hrest] at this
            cases this

/-- The block-facet properties whose decoding `Block::parse_from` guards with
a fallible `unwrap()` on an extractor result: the property is safe when the
corresponding extractor succeeds. Any other property never panics — including
`Configuration`, whose `as_iter().unwrap()` is on the `Variant` wrapper and
always succeeds. -/
def blockPropSafe (kv : String × DbusValue) : Bool :=
  match kv.1 with
  | "CryptoBackingDevice" => (get_string kv.2).isSome
  | "Device" => (get_byte_array kv.2).isSome
  | "Drive" => (get_string kv.2).isSome
  | "PreferredDevice" => (get_byte_array kv.2).isSome
  | _ => true

/-- The partition-facet properties whose decoding is guarded by an `expect`:
only `Table` can panic. -/
def partitionPropSafe (kv : String × DbusValue) : Bool :=
  match kv.1 with
  | "Table" => (get_string kv.2).isSome
  | _ => true

/-- Mapping over an unwrap of a present option cannot panic. -/
theorem unwrapE_map_isOk {o : Option α} (f : α → β) (msg : String)
    (h : o.isSome = true) : ((unwrapE msg o).map f).isOk = true := by
  cases o with
  | none => cases h
  | some a => rfl

/-- A fold of a panic-free step function over a list cannot panic. -/
theorem foldE_isOk (f : β → α → Except String β) (l : List α)
    (H : ∀ x ∈ l, ∀ b, (f b x).isOk = true) :
    ∀ b, (foldE f b l).isOk = true := by
  induction l with
  | nil => intro b; rfl
  | cons x xs ih =>
    intro b
    have hx := H x (List.mem_cons_self _ _) b
    unfold foldE
    cases hfx : f b x with
    | error e => rw [hfx] at hx; cases hx
    | ok b2 => exact ih (fun y hy => H y (List.mem_cons_of_mem _ hy)) b2

/-- A safe block-facet property never panics in `parseBlockProp`. -/
theorem parseBlockProp_isOk (b : Block) (k : String) (v : DbusValue)
    (hsafe : blockPropSafe (k, v) = true) :
    (parseBlockProp b (k, v)).isOk = true := by
  unfold parseBlockProp
  dsimp only
  split
  all_goals first
    | rfl
    | (simp only [blockPropSafe] at hsafe
       exact unwrapE_map_isOk _ _ hsafe)

/-- A safe partition-facet property never panics in `parsePartitionProp`. -/
theorem parsePartitionProp_isOk (q : Partition) (k : String) (v : DbusValue)
    (hsafe : partitionPropSafe (k, v) = true) :
    (parsePartitionProp q (k, v)).isOk = true := by
  unfold parsePartitionProp
  dsimp only
  split
  all_goals first
    | rfl
    | (simp only [partitionPropSafe] at hsafe
       exact unwrapE_map_isOk _ _ hsafe)

/-- The facet pass never panics on any interface other than the partition
facet, and not on the partition facet either when its properties are safe. -/
theorem parseFacet_isOk (b : Block) (k : String) (object : PropMap)
    (hsafe : k = "org.freedesktop.UDisks2.Partition" →
      ∀ kv ∈ object, partitionPropSafe kv = true) :
    (parseFacet b (k, object)).isOk = true := by
  unfold parseFacet
  dsimp only
  split
  all_goals first
    | rfl
    | (have hf : (foldE parsePartitionProp ({} : Partition) object).isOk = true := by
         refine foldE_isOk _ _ (fun kv hkv q => ?_) _
         rcases kv with ⟨pk, pv⟩
         exact parsePartitionProp_isOk q pk pv (hsafe rfl _ hkv)
       cases hpp : foldE parsePartitionProp ({} : Partition) object with
       | error e => rw [hpp] at hf; cases hf
       | ok partition => rfl)

/-- A successful interface lookup returns an entry of the map. -/
theorem lookupIface_mem (m : DbusObjects) (k : String) (props : PropMap)
    (h : lookupIface m k = some props) : (k, props) ∈ m := by
  unfold lookupIface at h
  cases hf : m.find? (fun p => p.1 == k) with
  | none => rw [hf] at h; cases h
  | some kv =>
    rw [hf] at h
    cases h
    have hk : kv.1 = k := by
      have := List.find?_some hf
      exact eq_of_beq this
    have hmem := List.mem_of_find?_eq_some hf
    have : kv = (k, kv.2) := by
      rcases kv with ⟨k1, v1⟩
      simp only at hk
      rw [hk]
    rw [this] at hmem
    exact hmem

/-- `Block::parse_from` cannot panic when every block-facet property is safe
and every partition-facet property is safe. -/
theorem parse_from_isOk (path : String) (objects : DbusObjects)
    (H1 : ∀ kv ∈ objects, kv.1 = "org.freedesktop.UDisks2.Block" →
      ∀ p ∈ kv.2, blockPropSafe p = true)
    (H2 : ∀ kv ∈ objects, kv.1 = "org.freedesktop.UDisks2.Partition" →
      ∀ p ∈ kv.2, partitionPropSafe p = true) :
    (Block.parse_from path objects).isOk = true := by
  unfold Block.parse_from
  split
  · rfl
  · cases hb : lookupIface objects "org.freedesktop.UDisks2.Block" with
    | none => rfl
    | some object =>
      have hall : ∀ p ∈ object, blockPropSafe p = true :=
        H1 _ (lookupIface_mem _ _ _ hb) rfl
      have h1 : (foldE parseBlockProp { path := path } object).isOk = true := by
        refine foldE_isOk _ _ (fun kv hkv b => ?_) _
        rcases kv with ⟨pk, pv⟩
        exact parseBlockProp_isOk b pk pv (hall _ hkv)
      cases hfold : foldE parseBlockProp { path := path } object with
      | error e => rw [hfold] at h1; cases h1
      | ok block =>
        have h2 : (foldE parseFacet block objects).isOk = true := by
          refine foldE_isOk _ _ (fun kv hkv b => ?_) _
          rcases kv with ⟨fk, fobj⟩
          exact parseFacet_isOk b fk fobj (fun heq => H2 _ hkv heq)
        cases hfold2 : foldE parseFacet block objects with
        | error e => rw [hfold2] at h2; cases h2
        | ok block2 =>
          dsimp only
          rw [hfold]
          dsimp only
          rw [hfold2]
          rfl

/-! ## Claims -/

/-- C1, counterexample: contrary to the claim, `Block::parse_from` is not
panic-free: an empty-string `CryptoBackingDevice` value makes `get_string`
absent and the decoder's `unwrap()` panics (`Except.error`) instead of
resolving the field to its default. -/
theorem claim_C1_cex :
    (Block.parse_from "/org/freedesktop/UDisks2/block_devices/sda"
      [("org.freedesktop.UDisks2.Block",
        [("CryptoBackingDevice", DbusValue.str "")])]).isOk = false := rfl

/-- C1 (amended): `Block::parse_from` returns `Some`/`None` without panicking
for every object path and interface map, provided every `CryptoBackingDevice`,
`Drive`, `Device` and `PreferredDevice` value in the block facet and every
`Table` value in the partition facet has the expected shape; a value of the
wrong or absent shape at exactly these five properties panics, and any other
malformed property — a wrong-shaped `Configuration` payload included — is
resolved locally to the field's absent/zero/false/default value. -/
theorem claim_C1 (path : String) (objects : DbusObjects)
    (H1 : ∀ kv ∈ objects, kv.1 = "org.freedesktop.UDisks2.Block" →
      ∀ p ∈ kv.2, blockPropSafe p = true)
    (H2 : ∀ kv ∈ objects, kv.1 = "org.freedesktop.UDisks2.Partition" →
      ∀ p ∈ kv.2, partitionPropSafe p = true) :
    (Block.parse_from path objects).isOk = true :=
  parse_from_isOk path objects H1 H2

/-- C1, witness: an object whose guarded properties are well-shaped decodes
without panicking, even with a wrong-shaped `Configuration` payload (which
decodes to a default configuration record). -/
theorem claim_C1_witness :
    (Block.parse_from "/org/freedesktop/UDisks2/block_devices/sda1"
      [("org.freedesktop.UDisks2.Block",
        [("CryptoBackingDevice", DbusValue.str "/"),
         ("Drive", DbusValue.str "/org/freedesktop/UDisks2/drives/d"),
         ("Device", DbusValue.array [DbusValue.u64 47, DbusValue.u64 0]),
         ("Configuration", DbusValue.u64 5),
         ("HintAuto", DbusValue.boolean true),
         ("Id", DbusValue.str "")]),
       ("org.freedesktop.UDisks2.Partition",
        [("Table", DbusValue.str "/org/freedesktop/UDisks2/block_devices/sda"),
         ("Offset", DbusValue.u64 1024)])]).isOk = true :=
  claim_C1 _ _ (by decide) (by decide)

/-- C2, counterexample: contrary to the claim, a block classified as a child
partition but lacking a partition facet is not skipped with a diagnostic: the
sort-key `unwrap()` panics and the whole Disks assembly dies, so the fully
well-formed second drive also yields no `DiskDevice`. -/
theorem claim_C2_cex :
    (Disks.new_cache
      [{ path := "/drv/1" }, { path := "/drv/2" }]
      [{ path := "/b/p1", drive := "/drv/1", table := some {} },
       { path := "/b/c1", drive := "/drv/1" },
       { path := "/b/c2", drive := "/drv/1" },
       { path := "/b/p2", drive := "/drv/2", table := some {} }]).isOk = false := rfl

/-- C2 (amended): when a drive owns a parent block and at least two child
blocks of which some child lacks a partition facet, the assembly of the whole
Disks view panics (no `DiskDevice` is produced for any drive), rather than
skipping that one device. -/
theorem claim_C2 (drives : List Drive) (blocks : List Block) (d : Drive)
    (parent : Block) (parts : List Block)
    (hmem : d ∈ drives)
    (hsplit : splitBlocks (blocks.filter fun b => b.drive == d.path) =
      (some parent, parts))
    (hlen : 2 ≤ parts.length)
    (hbad : ∃ c ∈ parts, c.partition = none) :
    (Disks.new_cache drives blocks).isOk = false := by
  have hsort : sortPartitions parts = .error "unwrap" := by
    unfold sortPartitions
    rw [if_neg (by omega), if_pos]
    rcases hbad with ⟨c, hc, hcp⟩
    refine List.any_eq_true.mpr ⟨c, hc, ?_⟩
    rw [hcp]
    rfl
  have herr := newCacheAux_error blocks d parent parts "unwrap" hsplit hsort drives hmem
  unfold Disks.new_cache
  cases hx : newCacheAux blocks drives with
  | error e => rfl
  | ok devs => rw [hx] at herr; cases herr

/-- C2, witness: a concrete two-child instance with a missing facet makes the
assembly panic. -/
theorem claim_C2_witness :
    (Disks.new_cache
      [{ path := "/drv/a" }]
      [{ path := "/w/p", drive := "/drv/a", table := some {} },
       { path := "/w/c1", drive := "/drv/a",
         partition := some { offset := 1 } },
       { path := "/w/c2", drive := "/drv/a" }]).isOk = false :=
  claim_C2 _ _ { path := "/drv/a" } _ _ (by decide) rfl (by decide) (by decide)

/-- C3, counterexample: contrary to the claim, the threshold comparison is not
gated on `worst` being positive: with normalized = 5, threshold = 10 and
worst = -1 (unknown) the code returns `Failing`, while the claimed rule
(all three strictly positive, otherwise `Ok`) returns `Ok`. -/
theorem claim_C3_cex :
    SmartAttribute.assessment
      { id := 0, name := "", flags := 0, normalized := 5, worst := -1,
        threshold := 10, pretty := none } = SmartAssessment.Failing ∧
    assessmentSpecRule
      { id := 0, name := "", flags := 0, normalized := 5, worst := -1,
        threshold := 10, pretty := none } = SmartAssessment.Ok := by
  decide

/-- C3 (amended): `SmartAttribute::assessment` gates the `Failing` comparison
only on normalized and threshold being strictly positive (worst is not
consulted), and the `FailedInPast` comparison only on worst and threshold
being strictly positive; whenever threshold ≤ 0 the result is `Ok`. -/
theorem claim_C3 (a : SmartAttribute) :
    SmartAttribute.assessment a = assessmentAmendedRule a ∧
    (a.threshold ≤ 0 → SmartAttribute.assessment a = SmartAssessment.Ok) := by
  constructor
  · unfold SmartAttribute.assessment assessmentAmendedRule
    split_ifs <;> first | rfl | omega
  · intro ht
    unfold SmartAttribute.assessment
    rw [if_neg (by omega), if_neg (by omega)]

/-- C3, witness: the amended rule evaluated at a concrete attribute. -/
theorem claim_C3_witness :
    SmartAttribute.assessment
      { id := 1, name := "w", flags := 0, normalized := 20, worst := 5,
        threshold := 10, pretty := none } =
      assessmentAmendedRule
        { id := 1, name := "w", flags := 0, normalized := 20, worst := 5,
          threshold := 10, pretty := none } ∧
    (({ id := 1, name := "w", flags := 0, normalized := 20, worst := 5,
        threshold := 10, pretty := none } : SmartAttribute).threshold ≤ 0 →
      SmartAttribute.assessment
        { id := 1, name := "w", flags := 0, normalized := 20, worst := 5,
          threshold := 10, pretty := none } = SmartAssessment.Ok) :=
  claim_C3 _

/-- C4, counterexample: contrary to the claim, a pretty-unit tag of 257 does
not decode to "no interpreted value": the `as u8` cast truncates 257 to 1 and
the attribute gets a `Dimensionless` pretty value. -/
theorem claim_C4_cex :
    (SmartAttribute.ofRaw
      { id := 1, name := "x", flags := 0, value := 20, worst := 50,
        threshold := 10, pretty_value := 9, pretty_unit := 257 }).pretty =
      some { value := 9, unit := PrettyUnit.Dimensionless } := rfl

/-- C4 (amended): the raw-attribute decoder is total; the pretty-unit tag is
first truncated to a `u8` (`pretty_unit as u8`, i.e. modulo 256) and the
decoded `pretty` field is `None` exactly when the truncated tag lies outside
1–4; `id`, `name`, `flags`, `normalized`, `worst` and `threshold` pass through
unchanged. -/
theorem claim_C4 (raw : RawSmartAttribute) :
    ((SmartAttribute.ofRaw raw).pretty = none ↔
      (i32AsU8 raw.pretty_unit = 0 ∨ 5 ≤ i32AsU8 raw.pretty_unit)) ∧
    (SmartAttribute.ofRaw raw).id = raw.id ∧
    (SmartAttribute.ofRaw raw).name = raw.name ∧
    (SmartAttribute.ofRaw raw).flags = raw.flags ∧
    (SmartAttribute.ofRaw raw).normalized = raw.value ∧
    (SmartAttribute.ofRaw raw).worst = raw.worst ∧
    (SmartAttribute.ofRaw raw).threshold = raw.threshold := by
  refine ⟨?_, rfl, rfl, rfl, rfl, rfl, rfl⟩
  unfold SmartAttribute.ofRaw
  dsimp only
  rw [Option.map_eq_none']
  unfold PrettyUnit.tryFromU8
  split
  all_goals simp_all
  all_goals omega

/-- C4, witness: a tag of -1 truncates to 255 and decodes with no pretty
value, other fields passing through. -/
theorem claim_C4_witness :
    ((SmartAttribute.ofRaw
      { id := 5, name := "t", flags := 2, value := 90, worst := 80,
        threshold := 30, pretty_value := 7, pretty_unit := -1 }).pretty = none ↔
      (i32AsU8 (-1) = 0 ∨ 5 ≤ i32AsU8 (-1))) ∧
    (SmartAttribute.ofRaw
      { id := 5, name := "t", flags := 2, value := 90, worst := 80,
        threshold := 30, pretty_value := 7, pretty_unit := -1 }).id = 5 ∧
    (SmartAttribute.ofRaw
      { id := 5, name := "t", flags := 2, value := 90, worst := 80,
        threshold := 30, pretty_value := 7, pretty_unit := -1 }).name = "t" ∧
    (SmartAttribute.ofRaw
      { id := 5, name := "t", flags := 2, value := 90, worst := 80,
        threshold := 30, pretty_value := 7, pretty_unit := -1 }).flags = 2 ∧
    (SmartAttribute.ofRaw
      { id := 5, name := "t", flags := 2, value := 90, worst := 80,
        threshold := 30, pretty_value := 7, pretty_unit := -1 }).normalized = 90 ∧
    (SmartAttribute.ofRaw
      { id := 5, name := "t", flags := 2, value := 90, worst := 80,
        threshold := 30, pretty_value := 7, pretty_unit := -1 }).worst = 80 ∧
    (SmartAttribute.ofRaw
      { id := 5, name := "t", flags := 2, value := 90, worst := 80,
        threshold := 30, pretty_value := 7, pretty_unit := -1 }).threshold = 30 :=
  claim_C4 _

/-- C5, counterexample: contrary to the claim, the string-list extractor keeps
empty-string elements: a sequence holding one empty string decodes to a
present list containing that empty string, instead of dropping it (which
would have left the result absent). -/
theorem claim_C5_cex :
    get_string_array (DbusValue.array [DbusValue.str ""]) = some [""] := rfl

/-- C5 (amended): the string-list extractor keeps exactly the elements that
decode as strings — empty strings included — and returns absent when that
list is empty. -/
theorem claim_C5 (v : DbusValue) (l : List String)
    (h : get_string_array v = some l) :
    l ≠ [] ∧ ∃ xs, v.as_iter = some xs ∧ l = xs.filterMap DbusValue.as_str := by
  unfold get_string_array at h
  cases hv : v.as_iter with
  | none => rw [hv] at h; cases h
  | some xs =>
    rw [hv] at h
    simp only [Option.some_bind] at h
    split at h
    · cases h
    · rename_i hne
      cases h
      refine ⟨?_, xs, rfl, rfl⟩
      intro hnil
      exact hne (by rw [hnil]; rfl)

/-- C5, witness: a mixed sequence keeps its string elements (the empty one
included) and drops the non-string element. -/
theorem claim_C5_witness :
    (["a", ""] : List String) ≠ [] ∧
    ∃ xs, (DbusValue.array
        [DbusValue.str "a", DbusValue.u64 3, DbusValue.str ""]).as_iter = some xs ∧
      ["a", ""] = xs.filterMap DbusValue.as_str :=
  claim_C5 _ _ rfl

/-- C6, counterexample: contrary to the claim's scenario, giving the encrypted
block `E` the crypto_backing_device value and the candidate `C` the matching
path yields no result: the scan compares each candidate's
crypto_backing_device against `E.path`, so with the fields as the claim
assigns them nothing matches and the call returns `none`, not `C`. -/
theorem claim_C6_cex :
    Block.get_encrypted_block
      { path := "/b/e", crypto_backing_device := "/org/x/block_devices/dm_0",
        encrypted := some {} }
      [{ path := "/org/x/block_devices/dm_0" },
       { path := "/b/e", crypto_backing_device := "/org/x/block_devices/dm_0",
         encrypted := some {} }] = none := rfl

/-- C6 (amended): for an encrypted block `E` and a block `C` whose
crypto_backing_device equals `E.path` (the direction the code and the spec's
relationship sentence use), `E.get_encrypted_block([C, E])` returns `C`. -/
theorem claim_C6 (E C : Block)
    (henc : E.encrypted.isSome = true)
    (hlink : C.crypto_backing_device = E.path) :
    E.get_encrypted_block [C, E] = some C := by
  unfold Block.get_encrypted_block
  rw [if_pos henc]
  refine List.find?_cons_of_pos _ ?_
  rw [hlink]
  exact beq_self_eq_true _

/-- C6, witness: a concrete cleartext block pointing back at the encrypted
block's path is found. -/
theorem claim_C6_witness :
    Block.get_encrypted_block
      { path := "/b/e2", encrypted := some {} }
      [{ path := "/c2", crypto_backing_device := "/b/e2" },
       { path := "/b/e2", encrypted := some {} }] =
      some { path := "/c2", crypto_backing_device := "/b/e2" } :=
  claim_C6 _ _ rfl rfl

/-- C7: an object carrying the loop facet decodes to `None` (and in particular
does not panic), regardless of the other facets it carries, so no loop block
ever appears in the decoded Block set. -/
theorem claim_C7 (path : String) (objects : DbusObjects)
    (h : (lookupIface objects "org.freedesktop.UDisks2.Loop").isSome = true) :
    Block.parse_from path objects = .ok none := by
  unfold Block.parse_from
  rw [if_pos h]

/-- C7, witness: a loop object that also carries a block facet (with a value
that would otherwise panic the decoder) still decodes to `None`. -/
theorem claim_C7_witness :
    Block.parse_from "/org/freedesktop/UDisks2/block_devices/loop0"
      [("org.freedesktop.UDisks2.Loop", []),
       ("org.freedesktop.UDisks2.Block", [("Drive", DbusValue.str "")])] =
      .ok none :=
  claim_C7 _ _ rfl

/-- C8: in every successfully assembled Disks view, each device's partition
list is sorted ascending by the byte offset of its elements' partition facets
(under the claim's precondition that every drive-owned block without a
partition-table facet carries a partition facet, which also makes every listed
partition's facet present). -/
theorem claim_C8 (drives : List Drive) (blocks : List Block) (disks : Disks)
    (hpre : ∀ b ∈ blocks, (∃ d ∈ drives, b.drive = d.path) → b.table = none →
      b.partition.isSome = true)
    (hok : Disks.new_cache drives blocks = .ok disks) :
    ∀ dev ∈ disks.devices,
      dev.partitions.Pairwise (fun a b => offsetKey a ≤ offsetKey b) ∧
      ∀ p ∈ dev.partitions, p.partition.isSome = true := by
  unfold Disks.new_cache at hok
  cases haux : newCacheAux blocks drives with
  | error e => rw [haux] at hok; cases hok
  | ok devs =>
    rw [haux] at hok
    simp only [Except.map] at hok
    cases hok
    intro dev hdev
    obtain ⟨hdrive, parts, hsplit, hsort⟩ :=
      newCacheAux_spec blocks drives devs haux dev hdev
    refine ⟨sortPartitions_pairwise parts _ hsort, fun p hp => ?_⟩
    have hpmem := sortPartitions_mem parts _ hsort p hp
    have hsnd : p ∈ (splitBlocks (blocks.filter fun b => b.drive == dev.drive.path)).2 := by
      rw [hsplit]
      exact hpmem
    obtain ⟨hfil, htab⟩ := splitBlocks_snd _ p hsnd
    have h0 := List.of_mem_filter hfil
    simp only [beq_iff_eq] at h0
    exact hpre p (List.mem_of_mem_filter hfil) ⟨dev.drive, hdrive, h0⟩ htab

/-- C8, witness: a one-partition device assembles with a sorted partition list
whose element carries its facet. -/
theorem claim_C8_witness :
    ({ drive := { path := "/wd" },
       parent := { path := "/wd/p", drive := "/wd", table := some {} },
       partitions := [{ path := "/wd/c", drive := "/wd",
                        partition := some { offset := 5 } }] } :
      DiskDevice).partitions.Pairwise (fun a b => offsetKey a ≤ offsetKey b) ∧
    ∀ p ∈ ({ drive := { path := "/wd" },
             parent := { path := "/wd/p", drive := "/wd", table := some {} },
             partitions := [{ path := "/wd/c", drive := "/wd",
                              partition := some { offset := 5 } }] } :
      DiskDevice).partitions, p.partition.isSome = true :=
  claim_C8
    [{ path := "/wd" }]
    [{ path := "/wd/p", drive := "/wd", table := some {} },
     { path := "/wd/c", drive := "/wd", partition := some { offset := 5 } }]
    _ (by decide) rfl _ (List.mem_cons_self _ _)

/-- C9: a drive none of whose owned blocks carries a partition-table facet
contributes no `DiskDevice` to a successfully assembled Disks view. -/
theorem claim_C9 (drives : List Drive) (blocks : List Block) (d : Drive)
    (disks : Disks)
    (_hd : d ∈ drives)
    (hnotable : ∀ b ∈ blocks, b.drive = d.path → b.table = none)
    (hok : Disks.new_cache drives blocks = .ok disks) :
    ∀ dev ∈ disks.devices, dev.drive.path ≠ d.path := by
  unfold Disks.new_cache at hok
  cases haux : newCacheAux blocks drives with
  | error e => rw [haux] at hok; cases hok
  | ok devs =>
    rw [haux] at hok
    simp only [Except.map] at hok
    cases hok
    intro dev hdev heq
    obtain ⟨hdrive, parts, hsplit, hsort⟩ :=
      newCacheAux_spec blocks drives devs haux dev hdev
    have hfst : (splitBlocks (blocks.filter fun b => b.drive == dev.drive.path)).1 =
        some dev.parent := by
      rw [hsplit]
    obtain ⟨hfil, htab⟩ := splitBlocks_fst _ dev.parent hfst
    have h0 := List.of_mem_filter hfil
    simp only [beq_iff_eq] at h0
    have hnone : dev.parent.table = none :=
      hnotable _ (List.mem_of_mem_filter hfil) (by rw [h0, heq])
    rw [hnone] at htab
    cases htab

/-- C9, witness: of two drives, the one whose blocks are all table-less
appears in no assembled device: the single emitted device belongs to the
other drive. -/
theorem claim_C9_witness :
    (({ drive := { path := "/zd2" },
        parent := { path := "/zd2/p", drive := "/zd2", table := some {} },
        partitions := [] } : DiskDevice).drive.path == "/zd1") = false := by
  have h := claim_C9
    [{ path := "/zd1" }, { path := "/zd2" }]
    [{ path := "/zd1/x", drive := "/zd1" },
     { path := "/zd2/p", drive := "/zd2", table := some {} }]
    { path := "/zd1" }
    _ (by decide) (by decide) rfl
    { drive := { path := "/zd2" },
      parent := { path := "/zd2/p", drive := "/zd2", table := some {} },
      partitions := [] }
    (List.mem_cons_self _ _)
  exact beq_eq_false_iff_ne.mpr h

/-- C10: in every successfully assembled device, the parent carries the
partition-table facet and no element of the partition list does; hence of
several table-bearing blocks owned by one drive, only the one chosen as parent
survives and every other table-bearing block appears neither as parent nor
among the partitions. -/
theorem claim_C10 (drives : List Drive) (blocks : List Block) (disks : Disks)
    (hok : Disks.new_cache drives blocks = .ok disks) :
    ∀ dev ∈ disks.devices,
      dev.parent.table.isSome = true ∧
      (∀ p ∈ dev.partitions, p.table = none) ∧
      ∀ b : Block, b.table.isSome = true → b ∉ dev.partitions := by
  unfold Disks.new_cache at hok
  cases haux : newCacheAux blocks drives with
  | error e => rw [haux] at hok; cases hok
  | ok devs =>
    rw [haux] at hok
    simp only [Except.map] at hok
    cases hok
    intro dev hdev
    obtain ⟨hdrive, parts, hsplit, hsort⟩ :=
      newCacheAux_spec blocks drives devs haux dev hdev
    have hfst : (splitBlocks (blocks.filter fun b => b.drive == dev.drive.path)).1 =
        some dev.parent := by
      rw [hsplit]
    have hptab := (splitBlocks_fst _ dev.parent hfst).2
    have hnone : ∀ p ∈ dev.partitions, p.table = none := by
      intro p hp
      have hpmem := sortPartitions_mem parts _ hsort p hp
      have hsnd : p ∈ (splitBlocks (blocks.filter fun b => b.drive == dev.drive.path)).2 := by
        rw [hsplit]
        exact hpmem
      exact (splitBlocks_snd _ p hsnd).2
    refine ⟨hptab, hnone, fun b hb hbmem => ?_⟩
    rw [hnone b hbmem] at hb
    cases hb

/-- C10, witness: with two table-bearing blocks on one drive, the assembled
device's parent is table-bearing and its partition list holds no table-bearing
block. -/
theorem claim_C10_witness :
    ({ drive := { path := "/yd" },
       parent := { path := "/yd/t2", drive := "/yd",
                   table := some { type_ := "gpt" } },
       partitions := [] } : DiskDevice).parent.table.isSome = true ∧
    (∀ p ∈ ({ drive := { path := "/yd" },
              parent := { path := "/yd/t2", drive := "/yd",
                          table := some { type_ := "gpt" } },
              partitions := [] } : DiskDevice).partitions, p.table = none) ∧
    ∀ b : Block, b.table.isSome = true →
      b ∉ ({ drive := { path := "/yd" },
             parent := { path := "/yd/t2", drive := "/yd",
                         table := some { type_ := "gpt" } },
             partitions := [] } : DiskDevice).partitions :=
  claim_C10
    [{ path := "/yd" }]
    [{ path := "/yd/t1", drive := "/yd", table := some {} },
     { path := "/yd/t2", drive := "/yd", table := some { type_ := "gpt" } }]
    _ rfl _ (List.mem_cons_self _ _)
